import Mathlib

/-!
Verification of the aralog logging library (package aralog, file aralog.go).

The embedding works over byte lists (`List Nat`, one entry per byte).
Go strings become byte lists, Go `uint` arithmetic is `Nat` arithmetic
modulo 2^64, and fallible operations return `Option`.
The OS layer (os.OpenFile, os.Rename, file handles, writes) is modelled
by a small `World` state following POSIX semantics; file handles are
numeric identifiers allocated by a counter.
-/

/-- Bytes of an ASCII Lean string literal (code points equal bytes for ASCII). -/
def strBytes (s : String) : List Nat := s.data.map Char.toNat

/-- 2^64, the modulus of Go's 64-bit uint. -/
def U64 : Nat := 18446744073709551616

/-- Go's `uint(i)` conversion from `int` on a 64-bit platform. -/
def uintOf (i : Int) : Nat := (i % (18446744073709551616 : Int)).toNat

-- Flag constants from aralog.go (Bits or'ed together).
def Ldate : Nat := 1
def Ltime : Nat := 2
def Lmicroseconds : Nat := 4
def Llongfile : Nat := 8
def Lshortfile : Nat := 16
def LstdFlags : Nat := Ldate ||| Ltime

-- os.OpenFile flag constants (Linux values).
def O_WRONLY : Nat := 1
def O_CREATE : Nat := 64
def O_APPEND : Nat := 1024

/-- Decimal ASCII digits of `u`, most significant first, `[]` for `u = 0`.
The first argument is fuel; `u` itself is always enough fuel. -/
def digitsF : Nat → Nat → List Nat
  | 0, _ => []
  | f + 1, u => if u = 0 then [] else digitsF f (u / 10) ++ [48 + u % 10]

/-- Decimal ASCII digits of `u`, most significant first, `[]` for `u = 0`. -/
def digitsOf (u : Nat) : List Nat := digitsF u u

/-- Natural decimal representation of `u` ("0" for zero). -/
def decDigits (u : Nat) : List Nat := if u = 0 then [48] else digitsOf u

/-- Number of digits in the natural decimal representation of `u`. -/
def digitCount (u : Nat) : Nat := (decDigits u).length

/-- Decimal digits of `n` left-padded with ASCII zeros to width `wid`
(no padding when `wid` is at most the natural digit count). -/
def specPad (wid : Int) (n : Nat) : List Nat :=
  List.replicate (wid.toNat - (decDigits n).length) 48 ++ decDigits n

/-- The assembly loop of aralog's `itoa`:
`for ; u > 0 || wid > 0; u /= 10 { bp--; wid--; b[bp] = byte(u%10) + '0' }`.
The first argument is fuel; `u + wid.toNat + 1` is always enough. -/
def itoaCoreF : Nat → Nat → Int → List Nat
  | 0, _, _ => []
  | f + 1, u, wid =>
      if u > 0 ∨ wid > 0 then itoaCoreF f (u / 10) (wid - 1) ++ [48 + u % 10] else []

/-- The digit bytes written by `itoa`'s loop for value `u` and width `wid`. -/
def itoaCore (u : Nat) (wid : Int) : List Nat := itoaCoreF (u + wid.toNat + 1) u wid

/-- aralog's `itoa(buf *[]byte, i int, wid int)`.
Returns `none` when the 32-byte scratch array `b` overflows (index-out-of-range
panic: the loop runs more than 32 iterations). -/
def itoa (buf : List Nat) (i : Int) (wid : Int) : Option (List Nat) :=
  let u : Nat := uintOf i
  if u = 0 ∧ wid ≤ 1 then some (buf ++ [48])
  else if (itoaCore u wid).length ≤ 32 then some (buf ++ itoaCore u wid) else none

/-- The `for i := len(file) - 1; i > 0; i--` loop of `formatHeader` that
shortens the file name under `Lshortfile`; the argument is the loop index. -/
def shortLoop (file : List Nat) : Nat → List Nat
  | 0 => file
  | i + 1 => if file.getD (i + 1) 0 = 47 then file.drop (i + 2) else shortLoop file i

/-- The shortened file name computed by `formatHeader` under `Lshortfile`. -/
def shortName (file : List Nat) : List Nat := shortLoop file (file.length - 1)

/-- Spec-side short name: the substring after the last path separator found at
an index of at least 1, or the whole string when there is no such separator. -/
def specShortA (file : List Nat) : List Nat :=
  if 47 ∈ file.drop 1 then (file.reverse.takeWhile (fun c => c ≠ 47)).reverse else file

/-- UTF-8 encoding of the Unicode code point `c`. -/
def utf8Encode (c : Nat) : List Nat :=
  if c < 128 then [c]
  else if c < 2048 then [192 + c / 64, 128 + c % 64]
  else if c < 65536 then [224 + c / 4096, 128 + c / 64 % 64, 128 + c % 64]
  else [240 + c / 262144, 128 + c / 4096 % 64, 128 + c / 64 % 64, 128 + c % 64]

/-- Go's `string(i)` conversion on an integer: the UTF-8 bytes of the code
point with value `i`; values outside the valid code point range (negative,
beyond 0x10FFFF, or surrogates) yield U+FFFD. This is a code point
conversion, not decimal formatting. -/
def goStringOfInt (i : Int) : List Nat :=
  if i < 0 ∨ (1114111 : Int) < i ∨ ((55296 : Int) ≤ i ∧ i ≤ (57343 : Int)) then
    utf8Encode 65533
  else utf8Encode i.toNat

/-- A Go `time.Time` value as consumed by aralog: the components returned by
`Date()`, `Clock()`, `Nanosecond()` and `Unix()`. -/
structure Time where
  year : Nat
  month : Nat
  day : Nat
  hour : Nat
  minute : Nat
  second : Nat
  nsec : Nat
  unix : Int
deriving DecidableEq

/-- The `Logger` struct of aralog.go. The mutex is not represented (the
embedding is sequential); `out` is a numeric file-handle identifier and
`pfx` is the `prefix` field (a Lean keyword). -/
structure Logger where
  pfx : List Nat
  flag : Nat
  out : Nat
  buf : List Nat
  size : Nat
  path : List Nat
  maxsize : Nat
deriving DecidableEq

/-- OS-level state: the set of existing file paths, the set of open handles,
a fresh-handle counter, the package-global `currentOutFile` of aralog.go,
and the log of raw chunks written to handles. -/
structure World where
  fs : List (List Nat)
  openHandles : List Nat
  nextHandle : Nat
  currentOutFile : Option Nat
  writes : List (Nat × List Nat)
deriving DecidableEq

inductive GoErr where
  | openErr
  | writeErr
deriving DecidableEq

/-- Result of one `output` call: normal return (with or without an error
value) or a runtime panic. -/
inductive OutRes where
  | ok
  | err (e : GoErr)
  | panicked
deriving DecidableEq

/-- `os.OpenFile(path, flags, 0600)` (POSIX semantics): opening an existing
path succeeds; an absent path succeeds only when `O_CREATE` is among the
flags, in which case the file is created; otherwise ENOENT. -/
def osOpenFile (w : World) (path : List Nat) (flags : Nat) : World × Option Nat :=
  if path ∈ w.fs then
    ({ w with openHandles := w.nextHandle :: w.openHandles,
              nextHandle := w.nextHandle + 1 }, some w.nextHandle)
  else if flags &&& O_CREATE ≠ 0 then
    ({ w with fs := path :: w.fs,
              openHandles := w.nextHandle :: w.openHandles,
              nextHandle := w.nextHandle + 1 }, some w.nextHandle)
  else (w, none)

/-- `os.Rename(src, dst)` (POSIX semantics): moves `src` to `dst`
(overwriting `dst`) when `src` exists, otherwise fails. -/
def osRename (fs : List (List Nat)) (src dst : List Nat) :
    List (List Nat) × Bool :=
  if src ∈ fs then ((fs.filter (fun p => p ≠ src)) ++ [dst], true) else (fs, false)

/-- `File.Close()`: removes the handle from the open set. Close errors are
not modelled (the close always succeeds), so the close-failure warning
branch of `rollFile` is never taken in this model. -/
def osClose (w : World) (h : Nat) : World :=
  { w with openHandles := w.openHandles.filter (fun x => x ≠ h) }

/-- `File.Write(data)`: appends the chunk to the write log when the handle
is open, fails otherwise. -/
def osWrite (w : World) (h : Nat) (data : List Nat) : World × Option GoErr :=
  if h ∈ w.openHandles then
    ({ w with writes := w.writes ++ [(h, data)] }, none)
  else (w, some GoErr.writeErr)

/-- `New(out, prefix, flag)` from aralog.go: remaining fields take Go zero
values. -/
def New (out : Nat) (pfx : List Nat) (flag : Nat) : Logger :=
  { pfx := pfx, flag := flag, out := out, buf := [], size := 0, path := [], maxsize := 0 }

/-- `NewRollFileLogger(path, maxsize, flag)` from aralog.go. -/
def NewRollFileLogger (w : World) (path : List Nat) (maxsize : Nat) (flag : Nat) :
    World × Option Logger :=
  match osOpenFile w path (O_APPEND ||| O_WRONLY) with
  | (w1, none) => (w1, none)
  | (w1, some out) =>
      let w2 := { w1 with currentOutFile := some out }
      let maxsize := if maxsize < 1024 * 1024 then 1024 * 1024 * 10 else maxsize
      (w2, some { pfx := [], flag := flag, out := out, buf := [], size := 0,
                  path := path, maxsize := maxsize })

/-- `NewFileLogger(path, flag)` from aralog.go. -/
def NewFileLogger (w : World) (path : List Nat) (flag : Nat) :
    World × Option Logger :=
  NewRollFileLogger w path (1024 * 1024 * 10) flag

/-- The rotated-name suffix built in `rollFile`'s rename call:
`string(now.Year()) + string(now.Month()) + ... + string(now.Second())`. -/
def rotatedSuffix (now : Time) : List Nat :=
  goStringOfInt now.year ++ goStringOfInt now.month ++ goStringOfInt now.day ++
  goStringOfInt now.hour ++ goStringOfInt now.minute ++ goStringOfInt now.second

/-- The rename-failure warning text appended to `l.buf` in `rollFile` (the
OS error message that Go would concatenate is not modelled; as written in
the source this append does not even type-check in Go, so the evident
intent — append the message bytes and a newline — is modelled). -/
def warnRename : List Nat := strBytes "[XXX] ARALOGGER ERROR: Rolling file failed, "

/-- The date/time block of `formatHeader` (everything guarded by
`l.flag&(Ldate|Ltime|Lmicroseconds) != 0`), acting on buffer `b`.
`none` propagates an `itoa` panic. -/
def fhDateTime (flag : Nat) (b : List Nat) (t : Time) : Option (List Nat) :=
  if flag &&& (Ldate ||| Ltime ||| Lmicroseconds) ≠ 0 then
    (if flag &&& Ldate ≠ 0 then
      (itoa b (t.year : Int) 4).bind (fun b =>
      (itoa (b ++ [47]) (t.month : Int) 2).bind (fun b =>
      (itoa (b ++ [47]) (t.day : Int) 2).map (fun b => b ++ [32])))
    else some b).bind (fun b =>
      if flag &&& (Ltime ||| Lmicroseconds) ≠ 0 then
        (itoa b (t.hour : Int) 2).bind (fun b =>
        (itoa (b ++ [58]) (t.minute : Int) 2).bind (fun b =>
        (itoa (b ++ [58]) (t.second : Int) 2).bind (fun b =>
        (if flag &&& Lmicroseconds ≠ 0 then
          itoa (b ++ [46]) ((t.nsec / 1000 : Nat) : Int) 6
        else some b).map (fun b => b ++ [32]))))
      else some b)
  else some b

/-- The file/line block of `formatHeader` (everything guarded by
`l.flag&(Lshortfile|Llongfile) != 0`), acting on buffer `b`. -/
def fhFileLine (flag : Nat) (b : List Nat) (file : List Nat) (line : Int) :
    Option (List Nat) :=
  if flag &&& (Lshortfile ||| Llongfile) ≠ 0 then
    let file := if flag &&& Lshortfile ≠ 0 then shortName file else file
    (itoa (b ++ file ++ [58]) line (-1)).map (fun b => b ++ [58, 32])
  else some b

/-- `Logger.formatHeader(buf, t, file, line)` from aralog.go: appends the
prefix, then the date/time block, then the file/line block. -/
def formatHeader (l : Logger) (buf : List Nat) (t : Time) (file : List Nat)
    (line : Int) : Option (List Nat) :=
  (fhDateTime l.flag (buf ++ l.pfx) t).bind (fun b => fhFileLine l.flag b file line)

/-- The buffer built by `output` before the rotation check: reset `l.buf`,
run `formatHeader`, append the message, and append a newline when the
message is non-empty and does not already end in one. `output` reuses this
definition verbatim (the caller file/line is consulted only when a file
flag is set, mirroring the zero-valued locals of the source). -/
def builtLine (l : Logger) (now : Time) (caller : List Nat × Int)
    (s : List Nat) : Option (List Nat) :=
  let c := if l.flag &&& (Lshortfile ||| Llongfile) ≠ 0 then caller else ([], 0)
  (formatHeader l [] now c.1 c.2).map (fun b =>
    let b := b ++ s
    if s ≠ [] ∧ s.getLast? ≠ some 10 then b ++ [10] else b)

/-- The close-before-rename step of `rollFile`: `if currentOutFile != nil`,
close it (the close is modelled as always succeeding). -/
def closeCurrent (w : World) : World :=
  match w.currentOutFile with
  | some h => osClose w h
  | none => w

/-- `Logger.rollFile(now)` from aralog.go. Steps: add the pending buffer
length to `size`; when `size > maxsize`, close the package-global
`currentOutFile`, rename `path` to `path + rotatedSuffix`, on rename
failure append the warning and fall back to `path + string(now.Unix())`,
open `newPath` with `O_APPEND|O_WRONLY` (no create), and on success
publish the new handle and reset `size`. -/
def rollFile (w : World) (l : Logger) (now : Time) :
    World × Logger × Option GoErr :=
  let l := { l with size := (l.size + l.buf.length) % U64 }
  if l.size > l.maxsize then
    let w := closeCurrent w
    let r := osRename w.fs l.path (l.path ++ rotatedSuffix now)
    let w := { w with fs := r.1 }
    let l := if r.2 then l else { l with buf := l.buf ++ warnRename ++ [10] }
    let newPath := if r.2 then l.path else l.path ++ goStringOfInt now.unix
    match osOpenFile w newPath (O_APPEND ||| O_WRONLY) with
    | (w, none) => (w, l, some GoErr.openErr)
    | (w, some newOut) =>
        ({ w with currentOutFile := some newOut },
         { l with out := newOut, size := l.buf.length % U64 }, none)
  else (w, l, none)

/-- `Logger.output(calldepth, s)` from aralog.go, sequentially: build the
line into `l.buf`, run `rollFile` when `path` is non-empty (returning its
error if any), then write `l.buf` to the sink. `caller` stands for the
`runtime.Caller` result (already including the `"???"`/0 fallback). -/
def output (w : World) (l : Logger) (now : Time) (caller : List Nat × Int)
    (s : List Nat) : World × Logger × OutRes :=
  match builtLine l now caller s with
  | none => (w, { l with buf := [] }, OutRes.panicked)
  | some b =>
      let l := { l with buf := b }
      if l.path ≠ [] then
        match rollFile w l now with
        | (w, l, some e) => (w, l, OutRes.err e)
        | (w, l, none) =>
            match osWrite w l.out l.buf with
            | (w, none) => (w, l, OutRes.ok)
            | (w, some e) => (w, l, OutRes.err e)
      else
        match osWrite w l.out l.buf with
        | (w, none) => (w, l, OutRes.ok)
        | (w, some e) => (w, l, OutRes.err e)

/-- The flag value with the given options set (an or of the flag constants). -/
def mkFlag (d t m lf sf : Bool) : Nat :=
  (if d then Ldate else 0) ||| (if t then Ltime else 0) |||
  (if m then Lmicroseconds else 0) ||| (if lf then Llongfile else 0) |||
  (if sf then Lshortfile else 0)

/-- Spec-side date field: zero-padded YYYY/MM/DD and a space, when Date is set. -/
def specDatePart (d : Bool) (t : Time) : List Nat :=
  if d then
    specPad 4 t.year ++ [47] ++ specPad 2 t.month ++ [47] ++ specPad 2 t.day ++ [32]
  else []

/-- Spec-side time field: zero-padded HH:MM:SS, a 6-digit micros fraction when
Microseconds is set, and a space; present when Time or Microseconds is set. -/
def specTimePart (tf m : Bool) (t : Time) : List Nat :=
  if tf || m then
    specPad 2 t.hour ++ [58] ++ specPad 2 t.minute ++ [58] ++ specPad 2 t.second ++
    (if m then [46] ++ specPad 6 (t.nsec / 1000) else []) ++ [32]
  else []

/-- Spec-side file:line field: the (possibly shortened) file name, a colon, the
unpadded decimal line number, a colon and a space; ShortFile takes precedence. -/
def specFilePart (lf sf : Bool) (file : List Nat) (line : Int) : List Nat :=
  if lf || sf then
    (if sf then specShortA file else file) ++ [58] ++ decDigits line.toNat ++ [58, 32]
  else []

/-- Spec-side byte sequence of one emitted line: prefix, date, time, file:line,
message, and a newline exactly when the message is non-empty and does not
already end in one. -/
def specLine (d t m lf sf : Bool) (p : List Nat) (tm : Time) (file : List Nat)
    (line : Int) (s : List Nat) : List Nat :=
  p ++ specDatePart d tm ++ specTimePart t m tm ++ specFilePart lf sf file line ++ s ++
  (if s ≠ [] ∧ s.getLast? ≠ some 10 then [10] else [])

-- Concrete scenario for C1: two loggers built on distinct paths, then a
-- rotation on the first. The overridden size stands for the state reached
-- after about 1 MiB of emitted bytes.
def c1pa : List Nat := strBytes "a.log"
def c1pb : List Nat := strBytes "b.log"
def c1time : Time := ⟨2026, 10, 11, 12, 3, 4, 0, 1760184184⟩
def c1w0 : World := ⟨[c1pa, c1pb], [], 0, none, []⟩
def c1w1 : World := ⟨[c1pa, c1pb], [0], 1, some 0, []⟩
def c1la : Logger := ⟨[], 0, 0, [], 0, c1pa, 1048576⟩
def c1w2 : World := ⟨[c1pa, c1pb], [1, 0], 2, some 1, []⟩
def c1lb : Logger := ⟨[], 0, 1, [], 0, c1pb, 1048576⟩

-- Concrete scenario for C2: a rotation whose rename succeeds.
def c2pa : List Nat := strBytes "ara.log"
def c2time : Time := ⟨2026, 10, 11, 12, 3, 4, 0, 1760184184⟩
def c2w : World := ⟨[c2pa], [0], 1, some 0, []⟩
def c2l : Logger := ⟨[], 0, 0, [], 1048577, c2pa, 1048576⟩

-- Concrete scenarios for C3: a rotation with the log file present (rename
-- succeeds), and one with only the unix-suffixed fallback path present
-- (rename fails).
def c3pa : List Nat := strBytes "ara.log"
def c3time : Time := ⟨2026, 10, 11, 12, 3, 4, 0, 1760184184⟩
def c3w : World := ⟨[c3pa], [0], 1, some 0, []⟩
def c3l : Logger := ⟨[], 0, 0, [], 1048577, c3pa, 1048576⟩
def c3fb : List Nat := c3pa ++ goStringOfInt 1760184184
def c3w2 : World := ⟨[c3fb], [0], 1, some 0, []⟩
def c3l2 : Logger := ⟨[], 0, 0, [], 1048577, c3pa, 1048576⟩

-- Concrete inputs for C4's counterexample (flags = Lmicroseconds only,
-- empty message) and witness (flags = Ltime, message "hello").
def c4time : Time := ⟨2026, 10, 11, 12, 3, 4, 5000, 0⟩
def c4w : World := ⟨[], [0], 1, none, []⟩
def c4l : Logger := ⟨[], Lmicroseconds, 0, [], 0, [], 0⟩
def c4wW : World := ⟨[], [0], 1, none, []⟩
def c4lW : Logger := ⟨[], Ltime, 0, [], 0, [], 0⟩

-- Concrete scenarios for C5's witness: one emit below the threshold and one
-- successful rotation (the rename fails, the fallback path exists).
def c5tm : Time := ⟨2026, 1, 2, 3, 4, 5, 0, 100⟩
def c5wA : World := ⟨[], [], 0, none, []⟩
def c5lA : Logger := ⟨[], 0, 5, [7, 7], 10, [], 1048576⟩
def c5pb : List Nat := strBytes "ab"
def c5fb : List Nat := c5pb ++ goStringOfInt 100
def c5wB : World := ⟨[c5fb], [0], 1, some 0, []⟩
def c5lB : Logger := ⟨[], 0, 0, [7], 1048576, c5pb, 1048576⟩

-- Concrete inputs for C6's counterexample: ShortFile with a path whose only
-- separator is at index 0.
def c6time : Time := ⟨0, 0, 0, 0, 0, 0, 0, 0⟩
def c6l : Logger := ⟨[], Lshortfile, 0, [], 0, [], 0⟩

-- Concrete scenario for C7's witness: an emit that pushes the counter over
-- the threshold while the log file exists, so the rename succeeds and the
-- re-open of the original path fails.
def c7pa : List Nat := strBytes "c.log"
def c7tm : Time := ⟨2026, 1, 2, 3, 4, 5, 0, 77⟩
def c7w : World := ⟨[c7pa], [0], 1, some 0, []⟩
def c7l : Logger := ⟨[], 0, 0, [], 1048575, c7pa, 1048576⟩

-- Concrete world for C10's witness: no file exists.
def c10w : World := ⟨[], [], 0, none, []⟩
def c10pa : List Nat := strBytes "missing.log"

theorem digitsF_irrel : ∀ (f f' v : Nat), v ≤ f → v ≤ f' → digitsF f v = digitsF f' v := by
  intro f
  induction f with
  | zero =>
      intro f' v hv _
      have hv0 : v = 0 := Nat.le_zero.mp hv
      subst hv0
      cases f' <;> simp [digitsF]
  | succ f ih =>
      intro f' v hv hv'
      by_cases hv0 : v = 0
      · subst hv0
        cases f' <;> simp [digitsF]
      · have hvpos : 0 < v := Nat.pos_of_ne_zero hv0
        have hdiv : v / 10 < v := Nat.div_lt_self hvpos (by norm_num)
        cases f' with
        | zero => omega
        | succ g =>
            simp only [digitsF, if_neg hv0]
            rw [ih g (v / 10) (by omega) (by omega)]

theorem digitsOf_zero : digitsOf 0 = [] := rfl

theorem digitsOf_succ (u : Nat) (h : u ≠ 0) :
    digitsOf u = digitsOf (u / 10) ++ [48 + u % 10] := by
  obtain ⟨k, rfl⟩ : ∃ k, u = k + 1 := ⟨u - 1, by omega⟩
  have hdiv : (k + 1) / 10 < k + 1 := Nat.div_lt_self (by omega) (by norm_num)
  show digitsF (k + 1) (k + 1) = digitsF ((k + 1) / 10) ((k + 1) / 10) ++ _
  simp only [digitsF, if_neg h]
  rw [digitsF_irrel k ((k + 1) / 10) ((k + 1) / 10) (by omega) (by omega)]

theorem digitsOf_len_le : ∀ u, (digitsOf u).length ≤ u := by
  intro u
  induction u using Nat.strong_induction_on with
  | _ u ih =>
    by_cases h : u = 0
    · subst h; simp [digitsOf_zero]
    · have hdiv : u / 10 < u := Nat.div_lt_self (Nat.pos_of_ne_zero h) (by norm_num)
      rw [digitsOf_succ u h]
      have := ih (u / 10) hdiv
      simp only [List.length_append, List.length_singleton]
      omega

theorem digitsOf_lt_pow : ∀ (k u : Nat), u < 10 ^ k → (digitsOf u).length ≤ k := by
  intro k
  induction k with
  | zero =>
      intro u hu
      have : u = 0 := by simpa using Nat.lt_one_iff.mp (by simpa using hu)
      subst this; simp [digitsOf_zero]
  | succ k ih =>
      intro u hu
      by_cases h : u = 0
      · subst h; simp [digitsOf_zero]
      · rw [digitsOf_succ u h]
        have hdiv : u / 10 < 10 ^ k := by
          rw [Nat.div_lt_iff_lt_mul (by norm_num : 0 < 10)]
          calc u < 10 ^ (k + 1) := hu
            _ = 10 ^ k * 10 := by ring
        have := ih (u / 10) hdiv
        simp only [List.length_append, List.length_singleton]
        omega

theorem itoaCoreF_spec : ∀ (f : Nat) (u : Nat) (wid : Int),
    max (digitsOf u).length wid.toNat ≤ f →
    itoaCoreF f u wid =
      List.replicate (wid.toNat - (digitsOf u).length) 48 ++ digitsOf u := by
  intro f
  induction f with
  | zero =>
      intro u wid h
      have h1 : (digitsOf u).length = 0 := by omega
      have h2 : wid.toNat = 0 := by omega
      rw [List.length_eq_zero] at h1
      simp [itoaCoreF, h1, h2]
  | succ f ih =>
      intro u wid h
      by_cases hcond : u > 0 ∨ wid > 0
      · simp only [itoaCoreF, if_pos hcond]
        by_cases hu : u = 0
        · subst hu
          have hwid : wid > 0 := by tauto
          have hstep : (wid - 1).toNat = wid.toNat - 1 := by omega
          rw [ih 0 (wid - 1) (by simp [digitsOf_zero]; omega)]
          simp only [digitsOf_zero, List.length_nil, Nat.sub_zero, List.append_nil]
          rw [hstep]
          have : wid.toNat = (wid.toNat - 1) + 1 := by omega
          rw [this, List.replicate_succ']
          simp
        · have hlen : (digitsOf u).length = (digitsOf (u / 10)).length + 1 := by
            rw [digitsOf_succ u hu]; simp
          have hstep : (wid - 1).toNat = wid.toNat - 1 := by omega
          rw [ih (u / 10) (wid - 1) (by omega)]
          rw [digitsOf_succ u hu, hstep]
          have hpre : wid.toNat - 1 - (digitsOf (u / 10)).length =
              wid.toNat - (digitsOf u).length := by omega
          rw [hpre, List.append_assoc]
          have hsame : (digitsOf (u / 10) ++ [48 + u % 10]).length =
              (digitsOf u).length := by simp [hlen]
          rw [hsame]
      · have hu : u = 0 := by omega
        have hwid : wid ≤ 0 := by omega
        subst hu
        have hwt : wid.toNat = 0 := by omega
        simp [itoaCoreF, if_neg hcond, digitsOf_zero, hwt]
        omega

theorem itoaCore_spec (u : Nat) (wid : Int) :
    itoaCore u wid = List.replicate (wid.toNat - (digitsOf u).length) 48 ++ digitsOf u := by
  apply itoaCoreF_spec
  have := digitsOf_len_le u
  omega

theorem decDigits_ne_zero (u : Nat) (h : u ≠ 0) : decDigits u = digitsOf u := by
  simp [decDigits, h]

theorem specPad_length (wid : Int) (n : Nat) :
    (specPad wid n).length = max wid.toNat (digitCount n) := by
  unfold specPad digitCount
  simp [List.length_append]
  omega

theorem padBody_eq (u : Nat) (wid : Int) :
    (if u = 0 ∧ wid ≤ 1 then ([48] : List Nat) else itoaCore u wid) = specPad wid u := by
  by_cases h1 : u = 0 ∧ wid ≤ 1
  · obtain ⟨hu, hw⟩ := h1
    have hwt : wid.toNat - 1 = 0 := by omega
    subst hu
    rw [if_pos ⟨rfl, hw⟩]
    unfold specPad decDigits
    simp [hwt]
  · rw [if_neg h1, itoaCore_spec]
    by_cases hu : u = 0
    · have hw2 : ¬ wid ≤ 1 := fun hw => h1 ⟨hu, hw⟩
      subst hu
      unfold specPad decDigits
      simp only [digitsOf_zero, List.length_nil, Nat.sub_zero, List.append_nil,
        if_pos rfl, List.length_singleton]
      conv_lhs => rw [show wid.toNat = (wid.toNat - 1) + 1 from by omega]
      rw [List.replicate_succ']
      simp
    · rw [specPad, decDigits_ne_zero u hu]

theorem itoa_spec (buf : List Nat) (i : Int) (wid : Int)
    (h : max (digitCount (uintOf i)) wid.toNat ≤ 32) :
    itoa buf i wid = some (buf ++ specPad wid (uintOf i)) := by
  unfold itoa
  by_cases h1 : uintOf i = 0 ∧ wid ≤ 1
  · rw [if_pos h1]
    have := padBody_eq (uintOf i) wid
    rw [if_pos h1] at this
    rw [this]
  · rw [if_neg h1]
    have hbody := padBody_eq (uintOf i) wid
    rw [if_neg h1] at hbody
    rw [hbody]
    have hlen : (specPad wid (uintOf i)).length ≤ 32 := by
      rw [specPad_length]
      omega
    rw [if_pos hlen]

theorem uintOf_coe (y : Nat) (h : y < U64) : uintOf (y : Int) = y := by
  unfold uintOf
  unfold U64 at h
  omega

theorem uintOf_toNat (i : Int) (h0 : 0 ≤ i) (h1 : i < 18446744073709551616) :
    uintOf i = i.toNat := by
  unfold uintOf
  omega

theorem digitCount_pos (u : Nat) : 1 ≤ digitCount u := by
  unfold digitCount decDigits
  by_cases h : u = 0
  · simp [h]
  · simp only [if_neg h]
    have := digitsOf_succ u h
    rw [this]
    simp

theorem digitCount_le_20 (u : Nat) (h : u < U64) : digitCount u ≤ 20 := by
  unfold digitCount decDigits
  by_cases h0 : u = 0
  · simp [h0]
  · simp only [if_neg h0]
    apply digitsOf_lt_pow 20 u
    have : U64 ≤ 10 ^ 20 := by unfold U64; norm_num
    omega

theorem itoa_R (buf : List Nat) (y : Nat) (wid : Int) (hy : y < U64) (hw : wid ≤ 32) :
    itoa buf (y : Int) wid = some (buf ++ specPad wid y) := by
  have hc := uintOf_coe y hy
  have := digitCount_le_20 y hy
  rw [itoa_spec buf (y : Int) wid (by rw [hc]; omega), hc]

theorem itoa_R_int (buf : List Nat) (i : Int) (wid : Int)
    (h0 : 0 ≤ i) (h1 : i < 18446744073709551616) (hw : wid ≤ 32) :
    itoa buf i wid = some (buf ++ specPad wid i.toNat) := by
  have hc := uintOf_toNat i h0 h1
  have h20 := digitCount_le_20 i.toNat (by unfold U64; omega)
  rw [itoa_spec buf i wid (by rw [hc]; omega), hc]

theorem specPad_nonpos (wid : Int) (n : Nat) (h : wid ≤ 0) :
    specPad wid n = decDigits n := by
  unfold specPad
  have : wid.toNat = 0 := by omega
  simp [this]

theorem shortLoop_append (ys : List Nat) (c : Nat) :
    ∀ i, i < ys.length → shortLoop (ys ++ [c]) i = shortLoop ys i ++ [c] := by
  intro i
  induction i with
  | zero => intro _; simp [shortLoop]
  | succ i ih =>
      intro hi
      have hgd : (ys ++ [c]).getD (i + 1) 0 = ys.getD (i + 1) 0 :=
        List.getD_append ys [c] 0 (i + 1) hi
      simp only [shortLoop, hgd]
      by_cases hs : ys.getD (i + 1) 0 = 47
      · simp only [if_pos hs]
        exact List.drop_append_of_le_length (by omega)
      · simp only [if_neg hs]
        exact ih (by omega)

theorem shortName_eq_specShortA (file : List Nat) : shortName file = specShortA file := by
  induction file using List.reverseRecOn with
  | nil => rfl
  | append_singleton ys c ih =>
      rcases ys with _ | ⟨y, ys'⟩
      · simp [shortName, shortLoop, specShortA]
      · have hlen : ((y :: ys') ++ [c]).length - 1 = ys'.length + 1 := by simp
        have hgd : ((y :: ys') ++ [c]).getD (ys'.length + 1) 0 = c := by
          rw [List.getD_append_right (y :: ys') [c] 0 (ys'.length + 1) (by simp)]
          simp
        unfold shortName
        rw [hlen]
        simp only [shortLoop, hgd]
        by_cases hc : c = 47
        · subst hc
          simp only [if_pos rfl]
          rw [show ys'.length + 2 = ((y :: ys') ++ [47]).length by simp,
            List.drop_length]
          have hmem : 47 ∈ ((y :: ys') ++ [47]).drop 1 := by simp
          rw [specShortA, if_pos hmem, List.reverse_append]
          simp [List.takeWhile_cons]
        · simp only [if_neg hc]
          rw [shortLoop_append (y :: ys') c ys'.length (by simp)]
          have hshort : shortLoop (y :: ys') ys'.length = shortName (y :: ys') := by
            unfold shortName
            simp
          rw [hshort, ih]
          have hdrop : ((y :: ys') ++ [c]).drop 1 = ys' ++ [c] := by simp
          have hdrop2 : (y :: ys').drop 1 = ys' := by simp
          rw [specShortA, specShortA, hdrop, hdrop2]
          by_cases hm : 47 ∈ ys'
          · rw [if_pos (List.mem_append_left _ hm), if_pos hm, List.reverse_append]
            simp only [List.reverse_cons, List.reverse_nil, List.nil_append,
              List.singleton_append]
            rw [List.takeWhile_cons]
            simp [hc]
          · have hm2 : 47 ∉ ys' ++ [c] := by
              simp [List.mem_append, hm]
              omega
            rw [if_neg hm2, if_neg hm]

theorem itoa_R_div (buf : List Nat) (n : Nat) (wid : Int)
    (hy : n / 1000 < U64) (hw : wid ≤ 32) :
    itoa buf ((n : Int) / 1000) wid = some (buf ++ specPad wid (n / 1000)) := by
  have hcast : ((n : Int) / 1000) = ((n / 1000 : Nat) : Int) := by omega
  rw [hcast]
  exact itoa_R buf (n / 1000) wid hy hw

theorem mkFlag_fileBits (d t m lf sf : Bool) :
    (mkFlag d t m lf sf &&& (Lshortfile ||| Llongfile) ≠ 0) ↔ ((lf || sf) = true) := by
  revert d t m lf sf
  decide

set_option maxHeartbeats 1000000 in
theorem fhDateTime_eq (d t m lf sf : Bool) (b : List Nat) (tm : Time)
    (h1 : tm.year < U64) (h2 : tm.month < U64) (h3 : tm.day < U64)
    (h4 : tm.hour < U64) (h5 : tm.minute < U64) (h6 : tm.second < U64)
    (h7 : tm.nsec / 1000 < U64) :
    fhDateTime (mkFlag d t m lf sf) b tm =
      some (b ++ specDatePart d tm ++ specTimePart t m tm) := by
  cases d <;> cases t <;> cases m <;> cases lf <;> cases sf <;>
    simp +decide [fhDateTime, mkFlag, specDatePart, specTimePart,
      Ldate, Ltime, Lmicroseconds, Llongfile, Lshortfile,
      itoa_R _ _ _ h1, itoa_R _ _ _ h2, itoa_R _ _ _ h3, itoa_R _ _ _ h4,
      itoa_R _ _ _ h5, itoa_R _ _ _ h6, itoa_R_div _ _ _ h7, List.append_assoc]

set_option maxHeartbeats 1000000 in
theorem fhFileLine_eq (d t m lf sf : Bool) (b : List Nat) (file : List Nat)
    (line : Int) (h0 : 0 ≤ line) (h1 : line < 18446744073709551616) :
    fhFileLine (mkFlag d t m lf sf) b file line =
      some (b ++ specFilePart lf sf file line) := by
  cases d <;> cases t <;> cases m <;> cases lf <;> cases sf <;>
    simp +decide [fhFileLine, mkFlag, specFilePart,
      Ldate, Ltime, Lmicroseconds, Llongfile, Lshortfile,
      itoa_R_int _ _ _ h0 h1, shortName_eq_specShortA, specPad_nonpos,
      List.append_assoc]

theorem formatHeader_eq (d t m lf sf : Bool) (p : List Nat) (o : Nat) (bu : List Nat)
    (sz : Nat) (pa : List Nat) (mx : Nat) (buf : List Nat) (tm : Time)
    (file : List Nat) (line : Int)
    (h1 : tm.year < U64) (h2 : tm.month < U64) (h3 : tm.day < U64)
    (h4 : tm.hour < U64) (h5 : tm.minute < U64) (h6 : tm.second < U64)
    (h7 : tm.nsec / 1000 < U64) (h8 : 0 ≤ line) (h9 : line < 18446744073709551616) :
    formatHeader ⟨p, mkFlag d t m lf sf, o, bu, sz, pa, mx⟩ buf tm file line =
      some (buf ++ p ++ specDatePart d tm ++ specTimePart t m tm ++
        specFilePart lf sf file line) := by
  unfold formatHeader
  rw [show (Logger.mk p (mkFlag d t m lf sf) o bu sz pa mx).flag = mkFlag d t m lf sf from rfl,
    show (Logger.mk p (mkFlag d t m lf sf) o bu sz pa mx).pfx = p from rfl]
  rw [fhDateTime_eq d t m lf sf (buf ++ p) tm h1 h2 h3 h4 h5 h6 h7]
  rw [Option.some_bind]
  rw [fhFileLine_eq d t m lf sf _ file line h8 h9]

theorem builtLine_eq (d t m lf sf : Bool) (p : List Nat) (o : Nat) (bu : List Nat)
    (sz : Nat) (pa : List Nat) (mx : Nat) (tm : Time)
    (caller : List Nat × Int) (s : List Nat)
    (h1 : tm.year < U64) (h2 : tm.month < U64) (h3 : tm.day < U64)
    (h4 : tm.hour < U64) (h5 : tm.minute < U64) (h6 : tm.second < U64)
    (h7 : tm.nsec / 1000 < U64) (h8 : 0 ≤ caller.2)
    (h9 : caller.2 < 18446744073709551616) :
    builtLine ⟨p, mkFlag d t m lf sf, o, bu, sz, pa, mx⟩ tm caller s =
      some (specLine d t m lf sf p tm caller.1 caller.2 s) := by
  have hmask := mkFlag_fileBits d t m lf sf
  unfold builtLine
  dsimp only
  by_cases hfs : (lf || sf) = true
  · rw [if_pos (hmask.mpr hfs)]
    rw [formatHeader_eq d t m lf sf p o bu sz pa mx [] tm caller.1 caller.2
      h1 h2 h3 h4 h5 h6 h7 h8 h9]
    rw [Option.map_some']
    unfold specLine
    by_cases hnl : s ≠ [] ∧ s.getLast? ≠ some 10
    · rw [if_pos hnl, if_pos hnl]
      simp [List.append_assoc]
    · rw [if_neg hnl, if_neg hnl]
      simp [List.append_assoc]
  · have hnot : ¬ (mkFlag d t m lf sf &&& (Lshortfile ||| Llongfile) ≠ 0) :=
      fun hne => hfs (hmask.mp hne)
    rw [if_neg hnot]
    dsimp only
    rw [formatHeader_eq d t m lf sf p o bu sz pa mx [] tm [] 0
      h1 h2 h3 h4 h5 h6 h7 (le_refl 0) (by norm_num)]
    rw [Option.map_some']
    have hlfsf : lf = false ∧ sf = false := by
      cases lf <;> cases sf <;> simp_all
    unfold specLine
    rw [show specFilePart lf sf [] 0 = [] by simp [specFilePart, hlfsf.1, hlfsf.2]]
    rw [show specFilePart lf sf caller.1 caller.2 = [] by
      simp [specFilePart, hlfsf.1, hlfsf.2]]
    by_cases hnl : s ≠ [] ∧ s.getLast? ≠ some 10
    · rw [if_pos hnl, if_pos hnl]
      simp [List.append_assoc]
    · rw [if_neg hnl, if_neg hnl]
      simp [List.append_assoc]

/-- C1: the claim says two Logger instances share no state and rotation only
ever replaces the rotating Logger's own handle. The code violates it: after
building loggers A (handle 0) and B (handle 1), the package-global
`currentOutFile` refers to B's handle, and a rotation on A closes it —
B's sink handle is no longer open afterwards. -/
theorem c1_rollFile_closes_other_logger_handle :
    NewRollFileLogger c1w0 c1pa 1048576 0 = (c1w1, some c1la) ∧
    NewRollFileLogger c1w1 c1pb 1048576 0 = (c1w2, some c1lb) ∧
    c1lb.out ∈ c1w2.openHandles ∧
    c1lb.out ∉ (rollFile c1w2 { c1la with size := 1048577 } c1time).1.openHandles := by
  decide

/-- C2: the claim says the rotated name carries the decimal time components
(and the decimal Unix timestamp on rename failure). The code converts the
integers with Go's `string(i)` — a code point conversion — so for
2026-10-11 12:03:04 the file on disk is named `ara.log` followed by the
bytes [223, 170, 10, 11, 12, 3, 4] (U+07EA and five control characters,
including a newline for month 10), not "ara.log202610111234"; and
`string(now.Unix())` is the U+FFFD replacement character [239, 191, 189],
not the decimal timestamp. -/
theorem c2_rotated_name_is_rune_conversion :
    (rollFile c2w c2l c2time).1.fs = [c2pa ++ [223, 170, 10, 11, 12, 3, 4]] ∧
    c2pa ++ [223, 170, 10, 11, 12, 3, 4] ≠ c2pa ++ strBytes "202610111234" ∧
    goStringOfInt 1760184184 = [239, 191, 189] ∧
    goStringOfInt 1760184184 ≠ strBytes "1760184184" := by
  decide

/-- C3: the claim says the post-threshold open targets the original path in
append mode, creating it if absent, whether or not the rename succeeded.
The code passes no O_CREATE flag: after a successful rename the original
path no longer exists and the open fails (first scenario — rotation can
never complete through this branch), and after a failed rename the open
targets the unix-suffixed fallback path, not the original (second scenario:
it succeeds only because that fallback file already exists, and no file
exists at the original path afterwards). -/
theorem c3_reopen_no_create_wrong_path :
    (rollFile c3w c3l c3time).2.2 = some GoErr.openErr ∧
    c3pa ∉ (rollFile c3w c3l c3time).1.fs ∧
    (rollFile c3w2 c3l2 c3time).2.2 = none ∧
    (rollFile c3w2 c3l2 c3time).2.1.out = 1 ∧
    c3pa ∉ (rollFile c3w2 c3l2 c3time).1.fs := by
  decide

/-- C6 counterexample: with ShortFile set and caller path "/d.go", whose only
separator sits at index 0, `formatHeader` emits "/d.go:23: " — the whole
string — not "d.go:23: " as the claim (substring after the last separator)
requires. -/
theorem c6_counterexample :
    formatHeader c6l [] c6time (strBytes "/d.go") 23 = some (strBytes "/d.go:23: ") ∧
    strBytes "/d.go:23: " ≠ strBytes "d.go:23: " := by
  decide

/-- C8 counterexample: the claim quantifies over every width, but at
n = 0, w = 33 the 33 loop iterations overflow the 32-byte scratch array
(index-out-of-range panic, modelled as `none`), so no digits are appended. -/
theorem c8_counterexample :
    itoa [] 0 33 = none ∧ itoa [] 0 33 ≠ some (specPad 33 0) := by
  decide

/-- C8 (amended to widths at most 32): for non-negative 64-bit `n`, `itoa`
appends the decimal digits of `n` left-padded with zeros to width `w`,
exactly `max w (digitCount n)` digits when `w ≥ 1`, and exactly the natural
digits with no padding when `w ≤ 0`. -/
theorem c8_itoa_padding (buf : List Nat) (i : Int) (wid : Int)
    (h0 : 0 ≤ i) (h1 : i < 18446744073709551616) (h2 : wid ≤ 32) :
    itoa buf i wid = some (buf ++ specPad wid i.toNat) ∧
    (buf ++ specPad wid i.toNat).length =
      buf.length + max wid.toNat (digitCount i.toNat) ∧
    (wid ≤ 0 → itoa buf i wid = some (buf ++ decDigits i.toNat)) := by
  have hmain := itoa_R_int buf i wid h0 h1 h2
  refine ⟨hmain, ?_, ?_⟩
  · simp [specPad_length]
  · intro hw
    rw [hmain, specPad_nonpos _ _ hw]

theorem c8_witness :
    itoa [] 7 3 = some ([] ++ specPad 3 (7 : Int).toNat) ∧
    itoa [] 7 0 = some ([] ++ decDigits (7 : Int).toNat) :=
  ⟨(c8_itoa_padding [] 7 3 (by decide) (by decide) (by decide)).1,
   (c8_itoa_padding [] 7 0 (by decide) (by decide) (by decide)).2.2 (by decide)⟩

/-- C10: both constructors open the path with O_APPEND|O_WRONLY and no
create flag, so when no file exists at the path they return the open error,
no Logger is built, and the world (in particular the file system) is left
unchanged — construction never creates the log file. -/
theorem c10_construction_no_create (w : World) (path : List Nat) (maxsize : Nat)
    (flag : Nat) (h : path ∉ w.fs) :
    NewRollFileLogger w path maxsize flag = (w, none) ∧
    NewFileLogger w path flag = (w, none) := by
  have hopen : osOpenFile w path (O_APPEND ||| O_WRONLY) = (w, none) := by
    unfold osOpenFile
    rw [if_neg h, if_neg (by decide : ¬((O_APPEND ||| O_WRONLY) &&& O_CREATE ≠ 0))]
  constructor
  · unfold NewRollFileLogger
    rw [hopen]
  · unfold NewFileLogger NewRollFileLogger
    rw [hopen]

theorem c10_witness :
    c10pa ∉ c10w.fs ∧
    NewRollFileLogger c10w c10pa 5 7 = (c10w, none) ∧
    NewFileLogger c10w c10pa 7 = (c10w, none) :=
  ⟨by decide,
   (c10_construction_no_create c10w c10pa 5 7 (by decide)).1,
   (c10_construction_no_create c10w c10pa 5 7 (by decide)).2⟩

/-- C6 (amended): when ShortFile is set — taking precedence over LongFile —
`formatHeader` emits the substring after the last path separator found at an
index of at least 1 (a separator only at index 0 is ignored and the whole
string is used), then ':', the unpadded decimal line number, and ': '. -/
theorem c6_shortfile_header (d t m lf : Bool) (p : List Nat) (o : Nat)
    (bu : List Nat) (sz : Nat) (pa : List Nat) (mx : Nat) (buf : List Nat)
    (tm : Time) (file : List Nat) (line : Int)
    (h1 : tm.year < U64) (h2 : tm.month < U64) (h3 : tm.day < U64)
    (h4 : tm.hour < U64) (h5 : tm.minute < U64) (h6 : tm.second < U64)
    (h7 : tm.nsec / 1000 < U64) (h8 : 0 ≤ line)
    (h9 : line < 18446744073709551616) :
    formatHeader ⟨p, mkFlag d t m lf true, o, bu, sz, pa, mx⟩ buf tm file line =
      some (buf ++ p ++ specDatePart d tm ++ specTimePart t m tm ++
        (specShortA file ++ [58] ++ decDigits line.toNat ++ [58, 32])) := by
  rw [formatHeader_eq d t m lf true p o bu sz pa mx buf tm file line
    h1 h2 h3 h4 h5 h6 h7 h8 h9]
  simp [specFilePart, List.append_assoc]

theorem c6_witness :
    formatHeader ⟨[], mkFlag false false false true true, 0, [], 0, [], 0⟩ []
        c6time (strBytes "a/b.go") 23 =
      some ([] ++ [] ++ specDatePart false c6time ++
        specTimePart false false c6time ++
        (specShortA (strBytes "a/b.go") ++ [58] ++ decDigits (23 : Int).toNat ++
          [58, 32])) ∧
    specShortA (strBytes "a/b.go") = strBytes "b.go" :=
  ⟨c6_shortfile_header false false false true [] 0 [] 0 [] 0 [] c6time
     (strBytes "a/b.go") 23 (by decide) (by decide) (by decide) (by decide)
     (by decide) (by decide) (by decide) (by decide) (by decide),
   by decide⟩

/-- C4 counterexample: with flags = Lmicroseconds alone, an empty message,
and time 12:03:04.000005, the emitted bytes are "12:03:04.000005 " written
as-is to the sink: the time field appears although Ltime is not set, and no
trailing newline is appended — the claim promises a line ending in exactly
one newline for an empty message. -/
theorem c4_counterexample :
    (output c4w c4l c4time ([], 0) []).2.1.buf = strBytes "12:03:04.000005 " ∧
    (output c4w c4l c4time ([], 0) []).2.1.buf.getLast? ≠ some 10 ∧
    (output c4w c4l c4time ([], 0) []).1.writes =
      [(0, strBytes "12:03:04.000005 ")] := by
  decide

/-- C4 (amended): for every flag combination, prefix, timestamp, caller
file/line and message, one emit on a non-rotating Logger writes exactly
`<prefix><date ><time[.micros] ><file:line: ><message>` with the fields in
that fixed order — the date field present iff Date is set, the time field
present iff Time or Microseconds is set, the file:line field present iff
LongFile or ShortFile is set — followed by exactly one newline when the
message is non-empty and does not already end in one (a message already
ending in a newline gains none, and an empty message gains none). -/
theorem c4_output_format (d t m lf sf : Bool) (p : List Nat) (o : Nat)
    (bu : List Nat) (sz mx : Nat) (w : World) (tm : Time)
    (caller : List Nat × Int) (s : List Nat)
    (h1 : tm.year < U64) (h2 : tm.month < U64) (h3 : tm.day < U64)
    (h4 : tm.hour < U64) (h5 : tm.minute < U64) (h6 : tm.second < U64)
    (h7 : tm.nsec / 1000 < U64) (h8 : 0 ≤ caller.2)
    (h9 : caller.2 < 18446744073709551616) (hopen : o ∈ w.openHandles) :
    output w ⟨p, mkFlag d t m lf sf, o, bu, sz, [], mx⟩ tm caller s =
      ({ w with writes := w.writes ++
          [(o, specLine d t m lf sf p tm caller.1 caller.2 s)] },
       ⟨p, mkFlag d t m lf sf, o,
         specLine d t m lf sf p tm caller.1 caller.2 s, sz, [], mx⟩,
       OutRes.ok) := by
  unfold output
  rw [builtLine_eq d t m lf sf p o bu sz [] mx tm caller s
    h1 h2 h3 h4 h5 h6 h7 h8 h9]
  dsimp only
  rw [if_neg (by simp : ¬(([] : List Nat) ≠ []))]
  unfold osWrite
  rw [if_pos hopen]

theorem c4_witness :
    output c4wW c4lW ⟨2026, 10, 11, 12, 3, 4, 0, 0⟩ ([], 0) (strBytes "hello") =
      ({ c4wW with writes := c4wW.writes ++
          [(0, specLine false true false false false []
              ⟨2026, 10, 11, 12, 3, 4, 0, 0⟩ [] 0 (strBytes "hello"))] },
       ⟨[], mkFlag false true false false false, 0,
         specLine false true false false false []
           ⟨2026, 10, 11, 12, 3, 4, 0, 0⟩ [] 0 (strBytes "hello"), 0, [], 0⟩,
       OutRes.ok) ∧
    specLine false true false false false [] ⟨2026, 10, 11, 12, 3, 4, 0, 0⟩ [] 0
        (strBytes "hello") = strBytes "12:03:04 hello" ++ [10] :=
  ⟨c4_output_format false true false false false [] 0 [] 0 0 c4wW
     ⟨2026, 10, 11, 12, 3, 4, 0, 0⟩ ([], 0) (strBytes "hello")
     (by decide) (by decide) (by decide) (by decide) (by decide) (by decide)
     (by decide) (by decide) (by decide) (by decide),
   by decide⟩

theorem utf8Encode_ne_nil (c : Nat) : utf8Encode c ≠ [] := by
  unfold utf8Encode
  split_ifs <;> simp

theorem goStringOfInt_ne_nil (i : Int) : goStringOfInt i ≠ [] := by
  unfold goStringOfInt
  split_ifs <;> apply utf8Encode_ne_nil

theorem rotatedSuffix_ne_nil (tm : Time) : rotatedSuffix tm ≠ [] := by
  unfold rotatedSuffix
  intro h
  rw [List.append_eq_nil] at h
  exact goStringOfInt_ne_nil _ h.2

theorem path_ne_rotated (pa : List Nat) (tm : Time) :
    pa ≠ pa ++ rotatedSuffix tm := by
  intro h
  have hlen : (pa ++ rotatedSuffix tm).length = pa.length := by rw [← h]
  rw [List.length_append] at hlen
  exact rotatedSuffix_ne_nil tm (List.length_eq_zero.mp (by omega))

theorem path_notin_renamed_fs (fs : List (List Nat)) (pa : List Nat) (tm : Time) :
    pa ∉ (fs.filter (fun p => p ≠ pa)) ++ [pa ++ rotatedSuffix tm] := by
  intro h
  rw [List.mem_append] at h
  rcases h with h | h
  · rw [List.mem_filter] at h
    simp at h
  · rw [List.mem_singleton] at h
    exact path_ne_rotated pa tm h

theorem closeCurrent_fs (w : World) : (closeCurrent w).fs = w.fs := by
  unfold closeCurrent osClose
  cases w.currentOutFile <;> rfl

theorem closeCurrent_nextHandle (w : World) :
    (closeCurrent w).nextHandle = w.nextHandle := by
  unfold closeCurrent osClose
  cases w.currentOutFile <;> rfl

theorem closeCurrent_writes (w : World) : (closeCurrent w).writes = w.writes := by
  unfold closeCurrent osClose
  cases w.currentOutFile <;> rfl

/-- Rotate branch, rename succeeds: the re-open of the original path (moved
away by the rename, no O_CREATE) necessarily fails. -/
theorem rollFile_renameOk (w : World) (l : Logger) (tm : Time)
    (hgt : (l.size + l.buf.length) % U64 > l.maxsize) (hren : l.path ∈ w.fs) :
    rollFile w l tm =
      ({ closeCurrent w with
          fs := (w.fs.filter (fun p => p ≠ l.path)) ++ [l.path ++ rotatedSuffix tm] },
       { l with size := (l.size + l.buf.length) % U64 },
       some GoErr.openErr) := by
  unfold rollFile
  dsimp only
  rw [if_pos hgt]
  unfold osRename
  rw [closeCurrent_fs, if_pos hren]
  dsimp only
  simp only [eq_self_iff_true, if_true]
  unfold osOpenFile
  dsimp only
  rw [if_neg (path_notin_renamed_fs w.fs l.path tm),
    if_neg (by decide : ¬((O_APPEND ||| O_WRONLY) &&& O_CREATE ≠ 0))]

/-- Rotate branch, rename fails and the unix-suffixed fallback path exists:
the open succeeds and the Logger is pointed at the fallback file. -/
theorem rollFile_renameFail_openOk (w : World) (l : Logger) (tm : Time)
    (hgt : (l.size + l.buf.length) % U64 > l.maxsize) (hren : l.path ∉ w.fs)
    (hop : l.path ++ goStringOfInt tm.unix ∈ w.fs) :
    rollFile w l tm =
      ({ closeCurrent w with
          fs := w.fs,
          openHandles := w.nextHandle :: (closeCurrent w).openHandles,
          nextHandle := w.nextHandle + 1,
          currentOutFile := some w.nextHandle },
       { l with
          buf := l.buf ++ warnRename ++ [10],
          out := w.nextHandle,
          size := (l.buf ++ warnRename ++ [10]).length % U64 },
       none) := by
  unfold rollFile
  dsimp only
  rw [if_pos hgt]
  unfold osRename
  rw [closeCurrent_fs, if_neg hren]
  dsimp only
  simp only [Bool.false_eq_true, if_false]
  unfold osOpenFile
  dsimp only
  rw [if_pos hop]
  dsimp only
  rw [closeCurrent_nextHandle]

/-- Rotate branch, rename fails and the fallback path does not exist either:
the open fails. -/
theorem rollFile_renameFail_openFail (w : World) (l : Logger) (tm : Time)
    (hgt : (l.size + l.buf.length) % U64 > l.maxsize) (hren : l.path ∉ w.fs)
    (hop : l.path ++ goStringOfInt tm.unix ∉ w.fs) :
    rollFile w l tm =
      ({ closeCurrent w with fs := w.fs },
       { l with
          buf := l.buf ++ warnRename ++ [10],
          size := (l.size + l.buf.length) % U64 },
       some GoErr.openErr) := by
  unfold rollFile
  dsimp only
  rw [if_pos hgt]
  unfold osRename
  rw [closeCurrent_fs, if_neg hren]
  dsimp only
  simp only [Bool.false_eq_true, if_false]
  unfold osOpenFile
  dsimp only
  rw [if_neg hop,
    if_neg (by decide : ¬((O_APPEND ||| O_WRONLY) &&& O_CREATE ≠ 0))]

/-- C5: `rollFile` first adds the pending buffer length to the running byte
counter (in 64-bit uint arithmetic); when the updated counter does not
strictly exceed `maxsize` the call is a no-op apart from that counter (same
world, same sink, same path and all other fields, no error); when the
counter strictly exceeds `maxsize` and the rotation succeeds, the Logger's
sink is replaced by the freshly allocated handle — also published in the
global `currentOutFile` — and the counter is reset to the current pending
buffer length. -/
theorem c5_rollFile_threshold (w : World) (l : Logger) (tm : Time) :
    ((l.size + l.buf.length) % U64 ≤ l.maxsize →
      rollFile w l tm =
        (w, { l with size := (l.size + l.buf.length) % U64 }, none)) ∧
    ((l.size + l.buf.length) % U64 > l.maxsize →
      (rollFile w l tm).2.2 = none →
      ((rollFile w l tm).2.1.out = w.nextHandle ∧
       (rollFile w l tm).1.currentOutFile = some w.nextHandle ∧
       (rollFile w l tm).2.1.size = (rollFile w l tm).2.1.buf.length % U64 ∧
       (rollFile w l tm).2.1.path = l.path ∧
       (rollFile w l tm).2.1.maxsize = l.maxsize ∧
       (rollFile w l tm).2.1.flag = l.flag ∧
       (rollFile w l tm).2.1.pfx = l.pfx)) := by
  constructor
  · intro hle
    unfold rollFile
    dsimp only
    rw [if_neg (Nat.not_lt.mpr hle)]
  · intro hgt hnone
    by_cases hren : l.path ∈ w.fs
    · rw [rollFile_renameOk w l tm hgt hren] at hnone
      simp at hnone
    · by_cases hop : l.path ++ goStringOfInt tm.unix ∈ w.fs
      · rw [rollFile_renameFail_openOk w l tm hgt hren hop]
        exact ⟨rfl, rfl, rfl, rfl, rfl, rfl, rfl⟩
      · rw [rollFile_renameFail_openFail w l tm hgt hren hop] at hnone
        simp at hnone

theorem c5_witness :
    ((c5lA.size + c5lA.buf.length) % U64 ≤ c5lA.maxsize ∧
     rollFile c5wA c5lA c5tm =
       (c5wA, { c5lA with size := (c5lA.size + c5lA.buf.length) % U64 }, none)) ∧
    ((c5lB.size + c5lB.buf.length) % U64 > c5lB.maxsize ∧
     (rollFile c5wB c5lB c5tm).2.2 = none ∧
     (rollFile c5wB c5lB c5tm).2.1.out = c5wB.nextHandle ∧
     (rollFile c5wB c5lB c5tm).1.currentOutFile = some c5wB.nextHandle ∧
     (rollFile c5wB c5lB c5tm).2.1.size =
       (rollFile c5wB c5lB c5tm).2.1.buf.length % U64) :=
  ⟨⟨by decide, (c5_rollFile_threshold c5wA c5lA c5tm).1 (by decide)⟩,
   ⟨by decide, by decide,
    ((c5_rollFile_threshold c5wB c5lB c5tm).2 (by decide) (by decide)).1,
    ((c5_rollFile_threshold c5wB c5lB c5tm).2 (by decide) (by decide)).2.1,
    ((c5_rollFile_threshold c5wB c5lB c5tm).2 (by decide) (by decide)).2.2.1⟩⟩

/-- C7: when an emit pushes the counter over the threshold while the log
file still exists at `path` (so the rename succeeds) and the global
`currentOutFile` is this Logger's own sink, the post-threshold re-open of
the original path fails (no create flag, the file was just renamed away)
and the emit call returns that open error synchronously; no bytes are
written to any sink by that call, the Logger's sink field still refers to
the pre-rotation handle, and that handle has already been closed. -/
theorem c7_rotation_open_failure (w : World) (l : Logger) (tm : Time)
    (caller : List Nat × Int) (s : List Nat) (bl : List Nat)
    (hbl : builtLine l tm caller s = some bl)
    (hpath : l.path ≠ [])
    (hfs : l.path ∈ w.fs)
    (hcur : w.currentOutFile = some l.out)
    (hgt : (l.size + bl.length) % U64 > l.maxsize) :
    (output w l tm caller s).2.2 = OutRes.err GoErr.openErr ∧
    (output w l tm caller s).1.writes = w.writes ∧
    (output w l tm caller s).2.1.out = l.out ∧
    l.out ∉ (output w l tm caller s).1.openHandles := by
  have hroll := rollFile_renameOk w { l with buf := bl } tm hgt hfs
  unfold output
  rw [hbl]
  dsimp only
  rw [if_pos hpath, hroll]
  dsimp only
  have hopenh : (closeCurrent w).openHandles =
      w.openHandles.filter (fun x => x ≠ l.out) := by
    unfold closeCurrent osClose
    rw [hcur]
  refine ⟨rfl, closeCurrent_writes w, rfl, ?_⟩
  rw [hopenh]
  simp [List.mem_filter]

theorem c7_witness :
    (builtLine c7l c7tm ([], 0) [120] = some [120, 10] ∧
     c7l.path ≠ [] ∧ c7l.path ∈ c7w.fs ∧
     c7w.currentOutFile = some c7l.out ∧
     (c7l.size + ([120, 10] : List Nat).length) % U64 > c7l.maxsize) ∧
    (output c7w c7l c7tm ([], 0) [120]).2.2 = OutRes.err GoErr.openErr ∧
    (output c7w c7l c7tm ([], 0) [120]).1.writes = c7w.writes ∧
    (output c7w c7l c7tm ([], 0) [120]).2.1.out = c7l.out ∧
    c7l.out ∉ (output c7w c7l c7tm ([], 0) [120]).1.openHandles :=
  ⟨⟨by decide, by decide, by decide, by decide, by decide⟩,
   (c7_rotation_open_failure c7w c7l c7tm ([], 0) [120] [120, 10] (by decide)
     (by decide) (by decide) (by decide) (by decide)).1,
   (c7_rotation_open_failure c7w c7l c7tm ([], 0) [120] [120, 10] (by decide)
     (by decide) (by decide) (by decide) (by decide)).2.1,
   (c7_rotation_open_failure c7w c7l c7tm ([], 0) [120] [120, 10] (by decide)
     (by decide) (by decide) (by decide) (by decide)).2.2.1,
   (c7_rotation_open_failure c7w c7l c7tm ([], 0) [120] [120, 10] (by decide)
     (by decide) (by decide) (by decide) (by decide)).2.2.2⟩
